import Mathlib

/-!
# Verification of the field-writeability validator

Shallow embedding of `scripts/validate_field_writeability.py`: the assignment
extractor (three regular-expression pattern families, scanned with
`re.finditer` semantics), the field-metadata classifier (`FieldInfo`), the
metadata resolver with its per-run cache (`FieldValidator._get_sobject_metadata`
and `_validate_sobject_fields`), the run orchestrator (`FieldValidator.validate`)
and the `--max-issues` post-processing in `main`.

Character classes: the script's identifier alphabet is `[a-zA-Z_]` plus `\w`;
the embedding restricts `\w`, `\s` and `\d` to their ASCII alphabets, which is
the alphabet the program's identifiers are drawn from.
-/

/-- Embedding of the regex class `\w` on ASCII: letter, digit or underscore. -/
def isWordChar (c : Char) : Bool := c.isAlphanum || c == '_'

/-- Embedding of the regex class `\s` on ASCII. -/
def isSpaceChar (c : Char) : Bool :=
  c == ' ' || c == '\t' || c == '\n' || c == '\r' || c == '\x0b' || c == '\x0c'

/-- Embedding of the regex fragment `[a-zA-Z_]\w+` (greedy): a maximal word run
of length at least two whose first character is an ASCII letter or underscore.
Returns the captured identifier and the remaining text.  The fragment
`[a-zA-Z_]\w+(?:__c)?` used for field names is the same function: the greedy
`\w+` always consumes a trailing `__c`, so the optional group matches empty. -/
def matchIdent : List Char → Option (String × List Char)
  | [] => none
  | c :: cs =>
    if c.isAlpha || c == '_' then
      if cs.takeWhile isWordChar = [] then none
      else some (String.mk (c :: cs.takeWhile isWordChar), cs.dropWhile isWordChar)
    else none

/-- Embedding of `([a-zA-Z_]\w+(?:__c)?)\s*=`: an identifier, optional
whitespace, then a literal `=`. -/
def matchIdentEq (cs : List Char) : Option (String × List Char) :=
  match matchIdent cs with
  | none => none
  | some (g, rest) =>
    match rest.dropWhile isSpaceChar with
    | '=' :: rest2 => some (g, rest2)
    | _ => none

/-- Body of pattern 1 after its boundary:
`([a-zA-Z_]\w+)\.([a-zA-Z_]\w+(?:__c)?)\s*=`. -/
def matchP1Body (cs : List Char) : Option (String × String × List Char) :=
  match matchIdent cs with
  | none => none
  | some (g1, rest) =>
    match rest with
    | '.' :: rest2 =>
      match matchIdentEq rest2 with
      | none => none
      | some (g2, rest3) => some (g1, g2, rest3)
    | _ => none

/-- Pattern 1, `(?:^|[\s;])([a-zA-Z_]\w+)\.([a-zA-Z_]\w+(?:__c)?)\s*=` with
`re.MULTILINE`, attempted at one position: the zero-width `^` branch is tried
first (when the position is at a line start), then the branch consuming one
`[\s;]` character. -/
def matchDirectAt (atStart : Bool) (cs : List Char) : Option (String × String × List Char) :=
  match (if atStart then matchP1Body cs else none) with
  | some r => some r
  | none =>
    match cs with
    | c :: rest => if isSpaceChar c || c == ';' then matchP1Body rest else none
    | [] => none

/-- Body of pattern 3 after its boundary:
`([a-zA-Z_]\w+)(?:\[\d+\])\.([a-zA-Z_]\w+(?:__c)?)\s*=`. -/
def matchIndexedBody (cs : List Char) : Option (String × String × List Char) :=
  match matchIdent cs with
  | none => none
  | some (g1, rest) =>
    match rest with
    | '[' :: rest2 =>
      if rest2.takeWhile Char.isDigit = [] then none
      else
        match rest2.dropWhile Char.isDigit with
        | ']' :: '.' :: rest3 =>
          match matchIdentEq rest3 with
          | none => none
          | some (g2, rest4) => some (g1, g2, rest4)
        | _ => none
    | _ => none

/-- Pattern 3 attempted at one position, with the same `(?:^|[\s;])` boundary
handling as pattern 1. -/
def matchIndexedAt (atStart : Bool) (cs : List Char) : Option (String × String × List Char) :=
  match (if atStart then matchIndexedBody cs else none) with
  | some r => some r
  | none =>
    match cs with
    | c :: rest => if isSpaceChar c || c == ';' then matchIndexedBody rest else none
    | [] => none

/-- The lazy `[^)]*?` of pattern 2 followed by `([a-zA-Z_]\w+(?:__c)?)\s*=`:
try the field capture at the current position first (shortest expansion), and
otherwise advance one character, never across `)`. -/
def lazyScanNew : List Char → Option (String × List Char)
  | [] => none
  | c :: cs =>
    match matchIdentEq (c :: cs) with
    | some r => some r
    | none => if c == ')' then none else lazyScanNew cs

/-- Pattern 2, `new\s+([a-zA-Z_]\w+)\s*\([^)]*?([a-zA-Z_]\w+(?:__c)?)\s*=`,
attempted at one position (the pattern has no boundary, so a match may start
inside a longer word such as `renew`, exactly as in the script). -/
def matchNewBody (cs : List Char) : Option (String × String × List Char) :=
  match cs with
  | 'n' :: 'e' :: 'w' :: c :: rest =>
    if isSpaceChar c then
      match matchIdent (rest.dropWhile isSpaceChar) with
      | none => none
      | some (g1, rest2) =>
        match rest2.dropWhile isSpaceChar with
        | '(' :: rest3 =>
          match lazyScanNew rest3 with
          | none => none
          | some (g2, rest4) => some (g1, g2, rest4)
        | _ => none
    else none
  | _ => none

/-- Pattern 2 attempted at one position; it ignores the line-start flag. -/
def matchNewAt (_ : Bool) (cs : List Char) : Option (String × String × List Char) :=
  matchNewBody cs

/-- `re.finditer` over the text for one pattern: attempt a match at every
position from left to right; on success record the two capture groups and
resume after the match (non-overlapping matches), otherwise advance one
character.  The Boolean tracks whether the current position is at a line start
(for the `re.MULTILINE` anchor `^`); every match of the three patterns ends
with `=`, so scanning always resumes off a line start.  The fuel argument is
instantiated with `length + 1`, which bounds the number of steps since every
step consumes at least one character. -/
def scanPattern (step : Bool → List Char → Option (String × String × List Char)) :
    Nat → Bool → List Char → List (String × String)
  | 0, _, _ => []
  | _ + 1, _, [] => []
  | fuel + 1, atStart, c :: cs =>
    match step atStart (c :: cs) with
    | some (g1, g2, rest) => (g1, g2) :: scanPattern step fuel false rest
    | none => scanPattern step fuel (c == '\n') cs

/-- Python-dict lookup on an association list (first matching key; the paired
`dinsert` keeps keys unique, so this is the Python dict's value). -/
def dlookup {α : Type} : List (String × α) → String → Option α
  | [], _ => none
  | (k', v) :: rest, k => if k' = k then some v else dlookup rest k

/-- Python-dict assignment `d[k] = v` on an association list: overwrite in
place if the key exists, else append (Python dicts preserve insertion order). -/
def dinsert {α : Type} : List (String × α) → String → α → List (String × α)
  | [], k, v => [(k, v)]
  | (k', v') :: rest, k, v =>
    if k' = k then (k, v) :: rest else (k', v') :: dinsert rest k v

/-- One `assignments[sobj_type].add(field_name)` step of
`FieldValidator._extract_assignments` (creating the entry first when absent);
the per-object field collection has set semantics. -/
def addAssignment (m : List (String × List String)) (sobj fname : String) :
    List (String × List String) :=
  match dlookup m sobj with
  | none => m ++ [(sobj, [fname])]
  | some fs => dinsert m sobj (if fname ∈ fs then fs else fs ++ [fname])

/-- All `(sobject, field)` capture pairs produced by the three `re.finditer`
passes of `_extract_assignments`, in the order the script visits them. -/
def patternMatches (content : String) : List (String × String) :=
  scanPattern matchDirectAt (content.toList.length + 1) true content.toList
    ++ scanPattern matchNewAt (content.toList.length + 1) true content.toList
    ++ scanPattern matchIndexedAt (content.toList.length + 1) true content.toList

/-- Embedding of `FieldValidator._extract_assignments`: Apex units (`.cls`
files) are scanned with the three patterns and the captures accumulated into a
mapping from object-type identifier (original case preserved, per the comment
at lines 212-213 of the script) to the set of assigned field names; any other
unit yields the empty mapping. -/
def extract_assignments (is_apex : Bool) (content : String) :
    List (String × List String) :=
  if is_apex then
    (patternMatches content).foldl (fun m p => addAssignment m p.1 p.2) []
  else []

/-- The field-metadata attributes read by `FieldInfo`: the dictionary keys
`updateable`, `calculated` and `type`, each possibly absent (the script reads
them with `dict.get` and a default). -/
structure FieldMeta where
  updateable : Option Bool
  calculated : Option Bool
  ftype : Option String
deriving DecidableEq, Repr

/-- `FieldInfo.is_writeable`: `metadata.get('updateable', False)`. -/
def is_writeable (m : FieldMeta) : Bool := m.updateable.getD false

/-- `FieldInfo.is_formula`: `metadata.get('calculated', False)`. -/
def is_formula (m : FieldMeta) : Bool := m.calculated.getD false

/-- Python `needle in hay` on characters: `charsPrefix` is `startswith` and
`charsInfix` is substring containment. -/
def charsPrefix : List Char → List Char → Bool
  | [], _ => true
  | _ :: _, [] => false
  | a :: as, b :: bs => a == b && charsPrefix as bs

/-- Substring containment, the embedding of Python's `in` on strings. -/
def charsInfix (needle : List Char) : List Char → Bool
  | [] => charsPrefix needle []
  | c :: rest => charsPrefix needle (c :: rest) || charsInfix needle rest

/-- `FieldInfo.is_external`: `'ExternalFieldDefinition' in metadata.get('type', '')`. -/
def is_external (m : FieldMeta) : Bool :=
  charsInfix "ExternalFieldDefinition".toList (m.ftype.getD "").toList

/-- `FieldInfo.is_system_field`: `metadata.get('type', '').startswith('System.')`. -/
def is_system_field (m : FieldMeta) : Bool :=
  charsPrefix "System.".toList (m.ftype.getD "").toList

/-- `FieldInfo.field_type`: `metadata.get('type', 'Unknown')`. -/
def field_type (m : FieldMeta) : String := m.ftype.getD "Unknown"

/-- `FieldInfo.get_reason_not_writeable`: first-match-wins classification
formula / external / system / generic read-only. -/
def get_reason_not_writeable (m : FieldMeta) : String :=
  if is_formula m then "Formula field (calculated, not stored)"
  else if is_external m then "External field (integration field)"
  else if is_system_field m then "System field (" ++ field_type m ++ ")"
  else "Read-only field (type: " ++ field_type m ++ ")"

/-- One diagnostic record appended to `FieldValidator.issues`; `fieldType` is
the `field_type` key, present only on `FIELD_NOT_WRITEABLE` issues. -/
structure Issue where
  itype : String
  sobject : String
  field : String
  fieldType : Option String
  severity : String
  reason : String
deriving DecidableEq, Repr

/-- The object metadata held in the cache: mapping from field name (exact
case) to its attributes, as built by `_get_sobject_metadata`. -/
abbrev ObjectMetadata := List (String × FieldMeta)

/-- The body of the per-field loop of `_validate_sobject_fields` (lines
235-262): the issues appended for one assigned field name, given the resolved
object metadata.  An absent field yields one `FIELD_NOT_FOUND` warning, a
present non-writeable field one `FIELD_NOT_WRITEABLE` error, a writeable field
nothing. -/
def fieldIssue (sobj : String) (md : ObjectMetadata) (fname : String) : List Issue :=
  match dlookup md fname with
  | none =>
    [{ itype := "FIELD_NOT_FOUND", sobject := sobj, field := fname,
       fieldType := none, severity := "warning",
       reason := "Field not found in " ++ sobj ++ " metadata (may be dynamic)" }]
  | some fi =>
    if is_writeable fi then []
    else
      [{ itype := "FIELD_NOT_WRITEABLE", sobject := sobj, field := fname,
         fieldType := some (field_type fi), severity := "error",
         reason := get_reason_not_writeable fi }]

/-- The possible outcomes of the external `sf sobject describe` call, as
distinguished by `_get_sobject_metadata`: a parsed field list, a parsed
response whose `status` is non-zero, a non-zero exit code with some stderr
text, a timeout (`subprocess.TimeoutExpired`), or an unparseable response
(`json.JSONDecodeError`). -/
inductive DescribeResult where
  | success (fields : List (String × FieldMeta))
  | statusError
  | cmdError (stderr : String)
  | timeout
  | malformed
deriving DecidableEq, Repr

/-- Python `str.lower` on ASCII text. -/
def strLower (s : String) : String := String.mk (s.toList.map Char.toLower)

/-- Embedding of `FieldValidator._get_sobject_metadata`: `.ok none` is the
Python `None` return (object treated as absent) and `.error` the raised
`RuntimeError` that aborts the run.  Timeout and malformed responses are
caught and return `None`; a failing command returns `None` only when its
stderr carries a not-found marker, and otherwise raises.  A successful
response is keyed into a dict by field name (later duplicates overwrite). -/
def get_sobject_metadata (sobj : String) : DescribeResult → Except String (Option ObjectMetadata)
  | .success fields =>
    Except.ok (some (fields.foldl (fun m p => dinsert m p.1 p.2) []))
  | .statusError => Except.ok none
  | .cmdError stderr =>
    if charsInfix "No such object".toList stderr.toList
        || charsInfix "not found".toList (strLower stderr).toList then
      Except.ok none
    else Except.error ("Failed to describe " ++ sobj ++ ": " ++ stderr)
  | .timeout => Except.ok none
  | .malformed => Except.ok none

/-- The mutable state of a `FieldValidator` instance (`metadata_cache` and
`issues`), plus `calls`, the call-count instrumentation of the external lookup
that the specification's cache property asks for. -/
structure VState where
  cache : List (String × ObjectMetadata)
  issues : List Issue
  calls : Nat
deriving DecidableEq, Repr

/-- A freshly constructed validator: empty cache, no issues. -/
def initState : VState := ⟨[], [], 0⟩

/-- Python list/string `<` comparison on strings, lexicographic by code
point (the order used by `sorted`). -/
def charsLt : List Char → List Char → Bool
  | [], [] => false
  | [], _ :: _ => true
  | _ :: _, [] => false
  | a :: as, b :: bs => if a < b then true else if b < a then false else charsLt as bs

/-- Insertion into a sorted list of strings. -/
def insertSorted (x : String) : List String → List String
  | [] => [x]
  | y :: ys => if charsLt x.toList y.toList then x :: y :: ys else y :: insertSorted x ys

/-- Python `sorted` on a collection of (distinct) strings. -/
def sortStrings : List String → List String
  | [] => []
  | x :: xs => insertSorted x (sortStrings xs)

/-- Embedding of `FieldValidator._validate_sobject_fields`: resolve the
object type through the cache (performing the external lookup only on a cache
miss), treat an absent or empty metadata result as a console warning with an
early return (nothing cached, no issues), and otherwise check every assigned
field in sorted order. -/
def validate_sobject_fields (oracle : String → DescribeResult) (st : VState)
    (sobj : String) (fields : List String) : Except String VState :=
  match dlookup st.cache sobj with
  | some md =>
    Except.ok { st with issues := st.issues ++ (sortStrings fields).flatMap (fieldIssue sobj md) }
  | none =>
    match get_sobject_metadata sobj (oracle sobj) with
    | Except.error e => Except.error e
    | Except.ok none => Except.ok { st with calls := st.calls + 1 }
    | Except.ok (some md) =>
      if md = [] then Except.ok { st with calls := st.calls + 1 }
      else
        Except.ok { st with
          calls := st.calls + 1,
          cache := dinsert st.cache sobj md,
          issues := st.issues ++ (sortStrings fields).flatMap (fieldIssue sobj md) }

/-- The loop `for sobj_type, fields in sorted(...): self._validate_sobject_fields(...)`
threaded through the validator state; a raised `RuntimeError` aborts it. -/
def runSObjects (oracle : String → DescribeResult) :
    VState → List (String × List String) → Except String VState
  | st, [] => Except.ok st
  | st, (sobj, fields) :: rest =>
    match validate_sobject_fields oracle st sobj fields with
    | Except.error e => Except.error e
    | Except.ok st' => runSObjects oracle st' rest

/-- `if sobj not in all_assignments: all_assignments[sobj] = set()` of
`FieldValidator.validate`. -/
def ensureKey (m : List (String × List String)) (k : String) : List (String × List String) :=
  match dlookup m k with
  | none => m ++ [(k, [])]
  | some _ => m

/-- `all_assignments[sobj].update(fields)` for every entry of one unit's
extracted mapping (lines 171-174 of the script). -/
def mergeUnit (m : List (String × List String)) (ua : List (String × List String)) :
    List (String × List String) :=
  ua.foldl (fun acc p => p.2.foldl (fun a2 f => addAssignment a2 p.1 f) (ensureKey acc p.1)) m

/-- The aggregation over all input units of `FieldValidator.validate`: each
unit is a pair of its dialect flag (`True` for an Apex `.cls` file) and its
text. -/
def aggregateUnits (units : List (Bool × String)) : List (String × List String) :=
  units.foldl (fun acc u => mergeUnit acc (extract_assignments u.1 u.2)) []

/-- Insertion sort of the aggregated mapping by object-type key:
`sorted(all_assignments.items())` (keys are distinct, so the key order decides). -/
def insertPairSorted (x : String × List String) :
    List (String × List String) → List (String × List String)
  | [] => [x]
  | y :: ys => if charsLt x.1.toList y.1.toList then x :: y :: ys else y :: insertPairSorted x ys

/-- `sorted` on the aggregated assignment mapping. -/
def sortPairs : List (String × List String) → List (String × List String)
  | [] => []
  | p :: ps => insertPairSorted p (sortPairs ps)

/-- Embedding of `FieldValidator.validate` run on a fresh validator,
returning the final validator state (used to observe the cache and the lookup
call count). -/
def validateRunFull (oracle : String → DescribeResult) (units : List (Bool × String)) :
    Except String VState :=
  runSObjects oracle initState (sortPairs (aggregateUnits units))

/-- Embedding of `FieldValidator.validate` on a fresh validator: the returned
`(issues, exit_code)` pair, including the early `return [], 0` paths for an
empty file list and an empty aggregated mapping. -/
def validateRun (oracle : String → DescribeResult) (units : List (Bool × String)) :
    Except String (List Issue × Nat) :=
  if units = [] then Except.ok ([], 0)
  else
    if aggregateUnits units = [] then Except.ok ([], 0)
    else
      match runSObjects oracle initState (sortPairs (aggregateUnits units)) with
      | Except.error e => Except.error e
      | Except.ok st => Except.ok (st.issues, if st.issues = [] then 0 else 1)

/-- Modelled from the spec: the Name Normalizer `_normalize_sobject_name`
(exercised by the repository's unit tests but absent from the script itself):
convert the first character to uppercase and leave the remainder unchanged;
the empty string maps to itself. -/
def normalize_sobject_name (s : String) : String :=
  match s.toList with
  | [] => ""
  | c :: rest => String.mk (c.toUpper :: rest)

/-- Python slice `issues[:n]` for an `int` n (negative n counts from the
end, clamped at zero). -/
def pySliceTo (l : List Issue) (n : Int) : List Issue :=
  if 0 ≤ n then l.take n.toNat else l.take ((l.length : Int) + n).toNat

/-- The `--max-issues` post-processing in `main` (lines 342-343):
`if args.max_issues and len(issues) > args.max_issues: issues = issues[:args.max_issues]`.
`none` is an omitted option; an integer `0` is falsy, so it disables the
truncation. -/
def applyMaxIssues (maxIssues : Option Int) (issues : List Issue) : List Issue :=
  match maxIssues with
  | none => issues
  | some n => if n ≠ 0 ∧ n < (issues.length : Int) then pySliceTo issues n else issues

/-- The observable output of `main` after a completed validation: the
reported (possibly truncated) issue list, the JSON `success` flag
(`exit_code == 0`) and the process exit code `sys.exit(exit_code)`. -/
def mainOutput (maxIssues : Option Int) (r : Except String (List Issue × Nat)) :
    Except String (List Issue × Bool × Nat) :=
  r.map (fun p => (applyMaxIssues maxIssues p.1, p.2 == 0, p.2))

/-! ## Helper lemmas -/

theorem matchIdent_length {cs : List Char} {g : String} {rest : List Char}
    (h : matchIdent cs = some (g, rest)) : 2 ≤ g.length := by
  cases cs with
  | nil => simp [matchIdent] at h
  | cons c cs' =>
    simp only [matchIdent] at h
    split at h
    · split at h
      · simp at h
      · rename_i hrun
        simp only [Option.some.injEq, Prod.mk.injEq] at h
        obtain ⟨hg, -⟩ := h
        subst hg
        have h1 : cs'.takeWhile isWordChar ≠ [] := hrun
        have h2 : 0 < (cs'.takeWhile isWordChar).length := List.length_pos.mpr h1
        have h3 : (String.mk (c :: cs'.takeWhile isWordChar)).length
            = (cs'.takeWhile isWordChar).length + 1 := rfl
        omega
    · simp at h

theorem matchIdentEq_length {cs : List Char} {g : String} {rest : List Char}
    (h : matchIdentEq cs = some (g, rest)) : 2 ≤ g.length := by
  unfold matchIdentEq at h
  split at h
  · simp at h
  · rename_i g' rest' heq
    split at h
    · simp only [Option.some.injEq, Prod.mk.injEq] at h
      obtain ⟨hg, -⟩ := h
      exact hg ▸ matchIdent_length heq
    · simp at h

theorem matchP1Body_length {cs : List Char} {g1 g2 : String} {rest : List Char}
    (h : matchP1Body cs = some (g1, g2, rest)) : 2 ≤ g1.length ∧ 2 ≤ g2.length := by
  unfold matchP1Body at h
  split at h
  · simp at h
  · rename_i g1' rest' heq1
    split at h
    · split at h
      · simp at h
      · rename_i g2' rest3 heq2
        simp only [Option.some.injEq, Prod.mk.injEq] at h
        obtain ⟨ha, hb, -⟩ := h
        exact ⟨ha ▸ matchIdent_length heq1, hb ▸ matchIdentEq_length heq2⟩
    · simp at h

theorem matchDirectAt_length {b : Bool} {cs : List Char} {g1 g2 : String} {rest : List Char}
    (h : matchDirectAt b cs = some (g1, g2, rest)) : 2 ≤ g1.length ∧ 2 ≤ g2.length := by
  unfold matchDirectAt at h
  split at h
  · rename_i r heq
    simp only [Option.some.injEq] at h
    subst h
    split at heq
    · exact matchP1Body_length heq
    · simp at heq
  · split at h
    · split at h
      · exact matchP1Body_length h
      · simp at h
    · simp at h

theorem matchIndexedBody_length {cs : List Char} {g1 g2 : String} {rest : List Char}
    (h : matchIndexedBody cs = some (g1, g2, rest)) : 2 ≤ g1.length ∧ 2 ≤ g2.length := by
  unfold matchIndexedBody at h
  split at h
  · simp at h
  · rename_i g1' rest' heq1
    split at h
    · split at h
      · simp at h
      · split at h
        · split at h
          · simp at h
          · rename_i g2' rest4 heq2
            simp only [Option.some.injEq, Prod.mk.injEq] at h
            obtain ⟨ha, hb, -⟩ := h
            exact ⟨ha ▸ matchIdent_length heq1, hb ▸ matchIdentEq_length heq2⟩
        · simp at h
    · simp at h

theorem matchIndexedAt_length {b : Bool} {cs : List Char} {g1 g2 : String} {rest : List Char}
    (h : matchIndexedAt b cs = some (g1, g2, rest)) : 2 ≤ g1.length ∧ 2 ≤ g2.length := by
  unfold matchIndexedAt at h
  split at h
  · rename_i r heq
    simp only [Option.some.injEq] at h
    subst h
    split at heq
    · exact matchIndexedBody_length heq
    · simp at heq
  · split at h
    · split at h
      · exact matchIndexedBody_length h
      · simp at h
    · simp at h

theorem lazyScanNew_length : ∀ (cs : List Char) {g : String} {rest : List Char},
    lazyScanNew cs = some (g, rest) → 2 ≤ g.length := by
  intro cs
  induction cs with
  | nil => intro g rest h; simp [lazyScanNew] at h
  | cons c cs' ih =>
    intro g rest h
    simp only [lazyScanNew] at h
    split at h
    · rename_i r heq
      simp only [Option.some.injEq] at h
      subst h
      exact matchIdentEq_length heq
    · split at h
      · simp at h
      · exact ih h

theorem matchNewBody_length {cs : List Char} {g1 g2 : String} {rest : List Char}
    (h : matchNewBody cs = some (g1, g2, rest)) : 2 ≤ g1.length ∧ 2 ≤ g2.length := by
  unfold matchNewBody at h
  split at h
  · split at h
    · split at h
      · simp at h
      · rename_i g1' rest2 heq1
        split at h
        · split at h
          · simp at h
          · rename_i g2' rest4 heq2
            simp only [Option.some.injEq, Prod.mk.injEq] at h
            obtain ⟨ha, hb, -⟩ := h
            exact ⟨ha ▸ matchIdent_length heq1, hb ▸ lazyScanNew_length _ heq2⟩
        · simp at h
    · simp at h
  · simp at h

theorem matchNewAt_length {b : Bool} {cs : List Char} {g1 g2 : String} {rest : List Char}
    (h : matchNewAt b cs = some (g1, g2, rest)) : 2 ≤ g1.length ∧ 2 ≤ g2.length :=
  matchNewBody_length h

theorem scanPattern_pairs {step : Bool → List Char → Option (String × String × List Char)}
    (hstep : ∀ b cs g1 g2 rest, step b cs = some (g1, g2, rest) → 2 ≤ g1.length ∧ 2 ≤ g2.length) :
    ∀ (fuel : Nat) (b : Bool) (cs : List Char) (p : String × String),
      p ∈ scanPattern step fuel b cs → 2 ≤ p.1.length ∧ 2 ≤ p.2.length := by
  intro fuel
  induction fuel with
  | zero => intro b cs p h; simp [scanPattern] at h
  | succ n ih =>
    intro b cs p h
    cases cs with
    | nil => simp [scanPattern] at h
    | cons c cs' =>
      simp only [scanPattern] at h
      split at h
      · rename_i g1 g2 rest heq
        rcases List.mem_cons.mp h with h1 | h1
        · subst h1; exact hstep _ _ _ _ _ heq
        · exact ih false rest p h1
      · exact ih (c == '\n') cs' p h

theorem dlookup_mem {α : Type} : ∀ (m : List (String × α)) (k : String) (v : α),
    dlookup m k = some v → (k, v) ∈ m := by
  intro m k v
  induction m with
  | nil => intro h; simp [dlookup] at h
  | cons q rest ih =>
    intro h
    obtain ⟨k', v'⟩ := q
    simp only [dlookup] at h
    split at h
    · rename_i hk
      simp only [Option.some.injEq] at h
      subst hk; subst h
      exact List.mem_cons_self _ _
    · exact List.mem_cons_of_mem _ (ih h)

theorem dinsert_mem {α : Type} : ∀ (m : List (String × α)) (k : String) (v : α)
    (p : String × α), p ∈ dinsert m k v → p = (k, v) ∨ p ∈ m := by
  intro m k v
  induction m with
  | nil =>
    intro p h
    simp [dinsert] at h
    exact Or.inl h
  | cons q rest ih =>
    intro p h
    obtain ⟨k', v'⟩ := q
    simp only [dinsert] at h
    split at h
    · rcases List.mem_cons.mp h with h1 | h1
      · exact Or.inl h1
      · exact Or.inr (List.mem_cons_of_mem _ h1)
    · rcases List.mem_cons.mp h with h1 | h1
      · exact Or.inr (h1 ▸ List.mem_cons_self _ _)
      · rcases ih p h1 with h2 | h2
        · exact Or.inl h2
        · exact Or.inr (List.mem_cons_of_mem _ h2)

theorem dlookup_dinsert {α : Type} : ∀ (m : List (String × α)) (k : String) (v : α),
    dlookup (dinsert m k v) k = some v := by
  intro m k v
  induction m with
  | nil => simp [dinsert, dlookup]
  | cons q rest ih =>
    obtain ⟨k', v'⟩ := q
    simp only [dinsert]
    split
    · simp [dlookup]
    · rename_i hk
      simp only [dlookup]
      rw [if_neg hk]
      exact ih

/-- Both components of an aggregated assignment entry are identifiers of
length at least two. -/
def GoodPair (p : String × List String) : Prop :=
  2 ≤ p.1.length ∧ ∀ f ∈ p.2, 2 ≤ f.length

theorem addAssignment_pres {m : List (String × List String)} {sobj fname : String}
    (hm : ∀ q ∈ m, GoodPair q) (hs : 2 ≤ sobj.length) (hf : 2 ≤ fname.length) :
    ∀ q ∈ addAssignment m sobj fname, GoodPair q := by
  intro q hq
  unfold addAssignment at hq
  split at hq
  · rcases List.mem_append.mp hq with h | h
    · exact hm q h
    · simp only [List.mem_singleton] at h
      subst h
      refine ⟨hs, ?_⟩
      intro f hf'
      simp only [List.mem_singleton] at hf'
      subst hf'
      exact hf
  · rename_i fs hlk
    rcases dinsert_mem _ _ _ _ hq with h | h
    · subst h
      refine ⟨hs, ?_⟩
      have hfs : ∀ f ∈ fs, 2 ≤ f.length := (hm _ (dlookup_mem _ _ _ hlk)).2
      intro f hf'
      by_cases hmem : fname ∈ fs
      · rw [if_pos hmem] at hf'
        exact hfs f hf'
      · rw [if_neg hmem] at hf'
        rcases List.mem_append.mp hf' with h2 | h2
        · exact hfs f h2
        · simp only [List.mem_singleton] at h2
          subst h2
          exact hf
    · exact hm q h

theorem foldl_addAssignment_pres :
    ∀ (pairs : List (String × String)) (m : List (String × List String)),
      (∀ p ∈ pairs, 2 ≤ p.1.length ∧ 2 ≤ p.2.length) → (∀ q ∈ m, GoodPair q) →
      ∀ q ∈ pairs.foldl (fun acc p => addAssignment acc p.1 p.2) m, GoodPair q := by
  intro pairs
  induction pairs with
  | nil => intro m _ hm q hq; exact hm q hq
  | cons p rest ih =>
    intro m hp hm q hq
    simp only [List.foldl_cons] at hq
    exact ih _ (fun r hr => hp r (List.mem_cons_of_mem _ hr))
      (addAssignment_pres hm (hp p (List.mem_cons_self _ _)).1
        (hp p (List.mem_cons_self _ _)).2) q hq

theorem validateRun_ok_code {oracle : String → DescribeResult} {units : List (Bool × String)}
    {issues : List Issue} {code : Nat}
    (h : validateRun oracle units = Except.ok (issues, code)) :
    code = if issues = [] then 0 else 1 := by
  unfold validateRun at h
  split at h
  · simp only [Except.ok.injEq, Prod.mk.injEq] at h
    obtain ⟨h1, h2⟩ := h
    subst h1; subst h2
    rfl
  · split at h
    · simp only [Except.ok.injEq, Prod.mk.injEq] at h
      obtain ⟨h1, h2⟩ := h
      subst h1; subst h2
      rfl
    · split at h
      · simp at h
      · rename_i st heq
        simp only [Except.ok.injEq, Prod.mk.injEq] at h
        obtain ⟨h1, h2⟩ := h
        subst h1; subst h2
        rfl

/-! ## Concrete fixtures -/

/-- A writeable field's metadata. -/
def wMeta : FieldMeta := ⟨some true, some false, some "String"⟩

/-- A plain read-only field's metadata (not formula, external or system). -/
def roMeta : FieldMeta := ⟨some false, some false, some "Text"⟩

/-- Lookup oracle for the C1 scenario: the type `aa` times out, every other
type resolves to one read-only field `Ff`. -/
def c1oracle : String → DescribeResult := fun s =>
  if s = "aa" then DescribeResult.timeout else DescribeResult.success [("Ff", roMeta)]

/-- Lookup oracle for the C2 scenario: the describe command fails with a
not-found message for every type. -/
def c2oracle : String → DescribeResult := fun _ =>
  DescribeResult.cmdError "ERROR: No such object OpportunityLineItems"

/-- Lookup oracle for the C4 scenario: every type resolves to two writeable
fields. -/
def c4oracle : String → DescribeResult := fun _ =>
  DescribeResult.success [("Nn", wMeta), ("Mm", wMeta)]

/-- Field metadata that is writeable although every other flag is set
(calculated, external-marker type, system-prefix type). -/
def c6meta : FieldMeta := ⟨some true, some true, some "System.ExternalFieldDefinition"⟩

/-- Object metadata holding only the field `Ff` with `c6meta`. -/
def c6md : ObjectMetadata := [("Ff", c6meta)]

/-- Non-writeable formula-field metadata whose type string also carries the
external marker and the system prefix. -/
def c5meta : FieldMeta := ⟨some false, some true, some "System.ExternalFieldDefinition"⟩

/-- The object metadata resolved for `Tt` in the C8 witness. -/
def c8md : ObjectMetadata := [("Ff", wMeta)]

/-- The validator state after the first resolution of `Tt` in the C8
witness: one cache entry, no issues, one external call. -/
def c8st1 : VState := ⟨[("Tt", c8md)], [], 1⟩

/-- Lookup oracle for the C7/C10 scenarios: every type resolves to one
read-only field `Ff`. -/
def c10oracle : String → DescribeResult := fun _ => DescribeResult.success [("Ff", roMeta)]

/-- One Apex unit assigning `aa.Ff` and `bb.Ff` (the C7/C10 scenario input). -/
def c10units : List (Bool × String) := [(true, "aa.Ff = 1; bb.Ff = 2;")]

/-- The issue the run over `c10units` reports for `aa.Ff`. -/
def c10issueA : Issue :=
  ⟨"FIELD_NOT_WRITEABLE", "aa", "Ff", some "Text", "error", "Read-only field (type: Text)"⟩

/-- The issue the run over `c10units` reports for `bb.Ff`. -/
def c10issueB : Issue :=
  ⟨"FIELD_NOT_WRITEABLE", "bb", "Ff", some "Text", "error", "Read-only field (type: Text)"⟩

/-! ## Claim theorems -/

/-- C1, counterexample: the claim says a metadata lookup timeout terminates
the whole run with a fatal error and zero Issues.  On the concrete run below
the lookup for `aa` times out, yet the run completes normally (`Except.ok`,
no fatal error) and still reports the issue found for the other type `bb` —
partial results are reported, not discarded. -/
theorem c1_counterexample :
    validateRun c1oracle [(true, "aa.Cc = 1; bb.Ff = 2;")]
      = Except.ok ([⟨"FIELD_NOT_WRITEABLE", "bb", "Ff", some "Text", "error",
          "Read-only field (type: Text)"⟩], 1) := rfl

/-- C1, amended: a timeout or malformed (unparseable) describe response is
caught inside `_get_sobject_metadata` and surfaces as `None`; the object type
is then skipped exactly like an absent object — no Issues are emitted for its
fields, nothing is cached, and validation continues with the remaining types. -/
theorem c1_amended_skip (oracle : String → DescribeResult) (st : VState)
    (sobj : String) (fields : List String)
    (h1 : dlookup st.cache sobj = none)
    (h2 : oracle sobj = DescribeResult.timeout ∨ oracle sobj = DescribeResult.malformed) :
    validate_sobject_fields oracle st sobj fields
      = Except.ok { st with calls := st.calls + 1 } := by
  unfold validate_sobject_fields
  rcases h2 with h2 | h2 <;> simp [h1, h2, get_sobject_metadata]

/-- C1, witness for the amended theorem at a concrete timed-out lookup. -/
theorem c1_amended_skip_witness :
    validate_sobject_fields (fun _ => DescribeResult.timeout) initState "Tt" ["Ff"]
      = Except.ok { initState with calls := initState.calls + 1 } :=
  c1_amended_skip _ initState "Tt" ["Ff"] rfl (Or.inl rfl)

/-- C2, counterexample: the claim says an absent object type yields exactly
one FieldNotFound-class warning Issue per assigned field.  On the concrete
run below (the spec's own scenario: `opportunityLineItems[0].Quantity = 5;`
with the metadata source reporting no such object) the code returns zero
Issues — the console warning is printed but nothing is recorded. -/
theorem c2_counterexample :
    validateRun c2oracle [(true, "opportunityLineItems[0].Quantity = 5;")]
      = Except.ok ([], 0) := rfl

/-- C2, amended: when metadata resolution reports the object type absent the
run does continue with the remaining types (no abort), but the validator
emits zero Issues for the fields assigned under that type — the only trace is
a console warning. -/
theorem c2_absent_object_skip (oracle : String → DescribeResult) (st : VState)
    (sobj : String) (fields : List String)
    (h1 : dlookup st.cache sobj = none)
    (h2 : get_sobject_metadata sobj (oracle sobj) = Except.ok none) :
    validate_sobject_fields oracle st sobj fields
      = Except.ok { st with calls := st.calls + 1 } := by
  unfold validate_sobject_fields
  simp [h1, h2]

/-- C2, witness for the amended theorem at a concrete not-found lookup. -/
theorem c2_absent_object_skip_witness :
    validate_sobject_fields c2oracle initState "OpportunityLineItems" ["Quantity"]
      = Except.ok { initState with calls := initState.calls + 1 } :=
  c2_absent_object_skip c2oracle initState "OpportunityLineItems" ["Quantity"] rfl rfl

/-- C3: the claim (and the repository's own unit tests) demand that the
extractor's output mapping is keyed by `normalize(X)` (first character
uppercased), but `_extract_assignments` deliberately preserves the original
case: for the Apex text `account.Name = 1;` the mapping has the raw key
`account` and no entry for the normalized key `Account`. -/
theorem c3_extract_keeps_raw_case :
    dlookup (extract_assignments true "account.Name = 1;") (normalize_sobject_name "account") = none
      ∧ dlookup (extract_assignments true "account.Name = 1;") "account" = some ["Name"]
      ∧ normalize_sobject_name "account" = "Account" :=
  ⟨rfl, rfl, rfl⟩

/-- C4: the claim (and the repository's unit tests) demand one metadata-cache
entry per canonical object-type name; on a run whose text references both
`account` and `Account` the code instead creates two cache entries and makes
two external describe calls. -/
theorem c4_cache_two_entries :
    (validateRunFull c4oracle [(true, "account.Nn = 1; Account.Mm = 2;")]).map
      (fun st => (st.cache.map Prod.fst, st.calls))
      = Except.ok (["Account", "account"], 2) := rfl

/-- C5: a non-writeable field whose metadata has `calculated = true` always
classifies with the formula-field reason, whatever the external and system
flags say (first-match-wins precedence in `get_reason_not_writeable`). -/
theorem c5_formula_first (fm : FieldMeta) (_hw : is_writeable fm = false)
    (hc : fm.calculated = some true) :
    get_reason_not_writeable fm = "Formula field (calculated, not stored)" := by
  simp [get_reason_not_writeable, is_formula, hc]

/-- C5, witness: a field that is simultaneously formula, external and system
still gets the formula reason. -/
theorem c5_formula_first_witness :
    is_writeable c5meta = false ∧ c5meta.calculated = some true
      ∧ is_external c5meta = true ∧ is_system_field c5meta = true
      ∧ get_reason_not_writeable c5meta = "Formula field (calculated, not stored)" :=
  ⟨by decide, by decide, by decide, by decide,
    c5_formula_first c5meta (by decide) (by decide)⟩

/-- C6: a field present in its object's metadata with `updateable = true`
produces no Issue in the per-field check of `_validate_sobject_fields`, for
every combination of the remaining metadata flags. -/
theorem c6_writeable_no_issue (sobj : String) (md : ObjectMetadata) (fname : String)
    (fm : FieldMeta) (hlk : dlookup md fname = some fm)
    (hu : fm.updateable = some true) :
    fieldIssue sobj md fname = [] := by
  simp [fieldIssue, hlk, is_writeable, hu]

/-- C6, witness: a writeable field carrying the calculated flag, the external
marker and the system prefix still yields no issue. -/
theorem c6_writeable_no_issue_witness :
    dlookup c6md "Ff" = some c6meta ∧ c6meta.updateable = some true
      ∧ fieldIssue "Account" c6md "Ff" = [] :=
  ⟨by decide, by decide, c6_writeable_no_issue "Account" c6md "Ff" c6meta (by decide) (by decide)⟩

/-- C7: for every run that completes without a fatal error, the exit code is
non-zero exactly when the collected issue list is non-empty (warnings count). -/
theorem c7_exit_code_iff (oracle : String → DescribeResult) (units : List (Bool × String))
    (issues : List Issue) (code : Nat)
    (h : validateRun oracle units = Except.ok (issues, code)) :
    code ≠ 0 ↔ issues ≠ [] := by
  have hc := validateRun_ok_code h
  subst hc
  by_cases hi : issues = [] <;> simp [hi]

/-- C7, witness: a completed run with two issues exits non-zero. -/
theorem c7_exit_code_iff_witness :
    validateRun c10oracle c10units = Except.ok ([c10issueA, c10issueB], 1)
      ∧ ((1 : Nat) ≠ 0 ↔ ([c10issueA, c10issueB] : List Issue) ≠ []) :=
  ⟨rfl, c7_exit_code_iff c10oracle c10units [c10issueA, c10issueB] 1 rfl⟩

/-- C8, counterexample: the claim says resolving the same object type a
second time never triggers an additional describe call.  But a lookup that
reports the type absent caches nothing, so resolving that type twice performs
two external calls, not one. -/
theorem c8_counterexample :
    (runSObjects (fun _ => DescribeResult.statusError) initState
        [("Tt", ["Ff"]), ("Tt", ["Ff"])]).map VState.calls
      = Except.ok 2 := rfl

/-- C8, amended: when the first resolution of an object type succeeds (the
describe call returns the type with at least one field), the result is
cached, and a second resolution of the same type is served from the cache
with no additional external call; only failed, absent or field-less lookups
are re-attempted. -/
theorem c8_cache_hit_second (oracle : String → DescribeResult) (st st1 st2 : VState)
    (sobj : String) (fields fields2 : List String) (md : ObjectMetadata)
    (h1 : dlookup st.cache sobj = none)
    (h2 : get_sobject_metadata sobj (oracle sobj) = Except.ok (some md))
    (h3 : md ≠ [])
    (h4 : validate_sobject_fields oracle st sobj fields = Except.ok st1)
    (h5 : validate_sobject_fields oracle st1 sobj fields2 = Except.ok st2) :
    st1.calls = st.calls + 1 ∧ st2.calls = st1.calls := by
  unfold validate_sobject_fields at h4
  simp only [h1, h2] at h4
  rw [if_neg h3] at h4
  simp only [Except.ok.injEq] at h4
  subst h4
  refine ⟨rfl, ?_⟩
  unfold validate_sobject_fields at h5
  simp only [dlookup_dinsert] at h5
  simp only [Except.ok.injEq] at h5
  subst h5
  rfl

/-- C8, witness for the amended theorem: a concrete successful resolution of
`Tt` followed by a second resolution; the call count stays at one. -/
theorem c8_cache_hit_second_witness :
    c8st1.calls = initState.calls + 1 ∧ c8st1.calls = c8st1.calls :=
  c8_cache_hit_second (fun _ => DescribeResult.success c8md) initState c8st1 c8st1
    "Tt" ["Ff"] ["Ff"] c8md rfl rfl (by decide) rfl rfl

/-- C9: every object-type identifier and every field identifier reported by
the extractor is at least two characters long (each capture group of the
three patterns is `[a-zA-Z_]` followed by at least one `\w`); in particular
an assignment through single-character names is never extracted. -/
theorem c9_min_length (is_apex : Bool) (content : String) (sobj : String)
    (fs : List String) (h : (sobj, fs) ∈ extract_assignments is_apex content) :
    2 ≤ sobj.length ∧ ∀ f ∈ fs, 2 ≤ f.length := by
  unfold extract_assignments at h
  split at h
  · have hpairs : ∀ p ∈ patternMatches content, 2 ≤ p.1.length ∧ 2 ≤ p.2.length := by
      intro p hp
      unfold patternMatches at hp
      rcases List.mem_append.mp hp with hp1 | hp1
      · rcases List.mem_append.mp hp1 with hp2 | hp2
        · exact scanPattern_pairs (fun b cs g1 g2 rest hh => matchDirectAt_length hh) _ _ _ _ hp2
        · exact scanPattern_pairs (fun b cs g1 g2 rest hh => matchNewAt_length hh) _ _ _ _ hp2
      · exact scanPattern_pairs (fun b cs g1 g2 rest hh => matchIndexedAt_length hh) _ _ _ _ hp1
    exact foldl_addAssignment_pres (patternMatches content) [] hpairs
      (by intro q hq; simp at hq) (sobj, fs) h
  · simp at h

/-- C9, witness at a concrete extraction. -/
theorem c9_min_length_witness :
    (("aa", ["bb"]) ∈ extract_assignments true "aa.bb = 1;")
      ∧ (2 ≤ ("aa" : String).length ∧ ∀ f ∈ (["bb"] : List String), 2 ≤ f.length) :=
  ⟨by decide, c9_min_length true "aa.bb = 1;" "aa" ["bb"] (by decide)⟩

/-- C10, counterexample: the claim says that whenever `--max-issues N` is
supplied and more than N issues are found, the reported list is truncated to
the first N entries.  With `N = 0` and two issues found the code reports both
issues untruncated, because `if args.max_issues` treats 0 as falsy. -/
theorem c10_counterexample :
    mainOutput (some 0) (validateRun c10oracle c10units)
      = Except.ok ([c10issueA, c10issueB], false, 1) := rfl

/-- C10, amended: for `--max-issues N` with `N ≥ 1` and more than N issues
found, validation runs to completion (the run itself never consults the
limit), the reported list is the first N issues of the complete run, and the
success flag and exit code are computed from the full untruncated issue list;
`N = 0` is treated as no limit. -/
theorem c10_truncate_after (oracle : String → DescribeResult) (units : List (Bool × String))
    (issues : List Issue) (code : Nat) (n : Int)
    (h : validateRun oracle units = Except.ok (issues, code))
    (hn : 1 ≤ n) (hlen : n < (issues.length : Int)) :
    mainOutput (some n) (validateRun oracle units)
        = Except.ok (issues.take n.toNat, code == 0, code)
      ∧ (code = 0 ↔ issues = []) := by
  constructor
  · rw [h]
    simp only [mainOutput, Except.map, applyMaxIssues, pySliceTo]
    rw [if_pos ⟨by omega, hlen⟩, if_pos (by omega : (0 : Int) ≤ n)]
  · have hc := validateRun_ok_code h
    subst hc
    by_cases hi : issues = [] <;> simp [hi]

/-- C10, witness: the concrete two-issue run with `--max-issues 1` reports
only the first issue while the exit code is still computed from both. -/
theorem c10_truncate_after_witness :
    (mainOutput (some 1) (validateRun c10oracle c10units)
        = Except.ok (([c10issueA, c10issueB] : List Issue).take (Int.toNat 1), (1 : Nat) == 0, 1))
      ∧ ((1 : Nat) = 0 ↔ ([c10issueA, c10issueB] : List Issue) = []) :=
  c10_truncate_after c10oracle c10units [c10issueA, c10issueB] 1 1 rfl
    (by decide) (by decide)
